import Mathlib

/-!
Verification of the fd_agent analysis core: a shallow embedding of the
gap-reconciliation algorithm (backend/agents/gap_reporter.py), the
cross-reference builders (backend/agents/analyzer_agent.py,
backend/agents/orchestrator.py, backend/agents/memory_agent.py), the
structured store (backend/memory/structured_store.py) and the two static
extractors (backend/analyzers/python_analyzer.py,
backend/analyzers/flutter_analyzer.py), together with proofs of the
behavioural properties stated for them.

All strings handled by the system are ASCII (source paths, HTTP verbs,
route paths), so Python case mapping is embedded as per-character
ASCII case mapping.
-/

namespace FdAgent

/-- Python str.lower, per character (ASCII case mapping). -/
def pyLower (s : String) : String := ⟨s.data.map Char.toLower⟩

/-- Python str.upper, per character (ASCII case mapping). -/
def pyUpper (s : String) : String := ⟨s.data.map Char.toUpper⟩

/-- Python str.strip("/"): remove leading and trailing slash characters. -/
def stripSlashes (s : String) : String :=
  ⟨((s.data.dropWhile (· == '/')).reverse.dropWhile (· == '/')).reverse⟩

/-- Helper for substring containment: does the second list occur at the
head of the first one. -/
def startsWithL : List Char → List Char → Bool
  | _, [] => true
  | [], _ :: _ => false
  | a :: as, b :: bs => a == b && startsWithL as bs

/-- Helper for substring containment: does the second list occur
contiguously anywhere inside the first one. -/
def containsL : List Char → List Char → Bool
  | [], needle => needle.isEmpty
  | c :: t, needle => startsWithL (c :: t) needle || containsL t needle

/-- Python substring test: needle in hay. -/
def containsStr (hay needle : String) : Bool := containsL hay.data needle.data

/-- gap_reporter._normalize_path: (path or "").strip("/").lower(). -/
def normalizePath (p : String) : String := pyLower (stripSlashes p)

/-- gap_reporter._paths_match: after normalization the two paths are
equal or one is a substring of the other. -/
def pathsMatch (a b : String) : Bool :=
  normalizePath a == normalizePath b
    || containsStr (normalizePath b) (normalizePath a)
    || containsStr (normalizePath a) (normalizePath b)

/-- A declared API contract; in the source the path and method sit in the
contract record metadata mapping ("path"/"method" keys). -/
structure Contract where
  path : String
  method : String
deriving DecidableEq, Repr

/-- A discovered backend route record (APIEndpoint projection: the fields
the reconciliation reads). -/
structure Endpoint where
  path : String
  method : String
deriving DecidableEq, Repr

/-- A discovered UI outbound-call record (the fields the reconciliation
and the cross-reference builders read). -/
structure FlutterCall where
  endpoint : String
  method : String
  filePath : String
  line : Nat
deriving DecidableEq, Repr

/-- Entry of the missing_backend_endpoints list. -/
structure MissingEntry where
  path : String
  method : String
  reason : String
deriving DecidableEq, Repr

/-- Entry of the method_mismatches list. -/
structure MismatchEntry where
  path : String
  contract_method : String
  backend_methods : List String
  reason : String
deriving DecidableEq, Repr

/-- Entry of the contracts_not_used_in_flutter list. -/
structure NotUsedEntry where
  path : String
  method : String
  reason : String
deriving DecidableEq, Repr

/-- Entry of the backend_without_contract list. -/
structure NoContractEntry where
  path : String
  method : String
  reason : String
deriving DecidableEq, Repr

/-- The four lists returned by compute_gap_report. -/
structure GapReport where
  missing_backend_endpoints : List MissingEntry
  backend_without_contract : List NoContractEntry
  contracts_not_used_in_flutter : List NotUsedEntry
  method_mismatches : List MismatchEntry
deriving DecidableEq, Repr

/-- Insertion step of an ascending string sort (Python sorted). -/
def insertStr (x : String) : List String → List String
  | [] => [x]
  | y :: ys => if y < x then y :: insertStr x ys else x :: y :: ys

/-- Ascending sort on strings (Python sorted over code points). -/
def sortStrings (l : List String) : List String := l.foldr insertStr []

/-- Distinct elements in first-occurrence order (Python set contents). -/
def dedupStr (l : List String) : List String :=
  l.foldl (fun acc x => if acc.contains x then acc else acc ++ [x]) []

/-- The backend_by_path index at one normalized path: the set of
uppercased methods of the backend endpoints whose normalized path equals
it, returned sorted, exactly as sorted(backend_by_path[key]) reads it. -/
def methodsAt (backend : List Endpoint) (norm : String) : List String :=
  sortStrings (dedupStr
    ((backend.filter (fun ep => normalizePath ep.path == norm)).map
      (fun ep => pyUpper ep.method)))

/-- The match search of compute_gap_report: some backend endpoint whose
path matches under _paths_match and whose uppercased method equals the
uppercased contract method. -/
def hasBackendMatch (backend : List Endpoint) (c : Contract) : Bool :=
  backend.any fun ep =>
    pathsMatch c.path ep.path && (pyUpper c.method == pyUpper ep.method)

/-- The fallback check of compute_gap_report: the normalized contract path
is a key of the backend_by_path index, i.e. some backend endpoint has
exactly that normalized path. -/
def backendHasExactPath (backend : List Endpoint) (c : Contract) : Bool :=
  backend.any fun ep => normalizePath ep.path == normalizePath c.path

/-- The missing_backend_endpoints entry built for a contract. -/
def missingEntryOf (c : Contract) : MissingEntry :=
  ⟨c.path, pyUpper c.method, "No matching FastAPI endpoint"⟩

/-- The method_mismatches entry built for a contract. -/
def mismatchEntryOf (backend : List Endpoint) (c : Contract) : MismatchEntry :=
  ⟨c.path, pyUpper c.method, methodsAt backend (normalizePath c.path),
    "Method differs between contract and backend"⟩

/-- The contracts_not_used_in_flutter entry built for a contract. -/
def notUsedEntryOf (c : Contract) : NotUsedEntry :=
  ⟨c.path, pyUpper c.method, "Not called from Flutter"⟩

/-- The Flutter usage check of compute_gap_report. -/
def usedInFlutter (calls : List FlutterCall) (c : Contract) : Bool :=
  calls.any fun call => pathsMatch c.path call.endpoint

/-- The contract-coverage check of the backend_without_contract pass. -/
def contractCovers (contracts : List Contract) (ep : Endpoint) : Bool :=
  contracts.any fun c =>
    pathsMatch c.path ep.path && (pyUpper c.method == pyUpper ep.method)

/-- compute_gap_report (backend/agents/gap_reporter.py). Each output list
is populated by the single pass over the contracts (respectively backend
endpoints) appending at most one entry per element, which is rendered
here as filterMap; the branch structure per contract is: matched (no
entry), else exact-normalized-path key present (method mismatch entry),
else missing entry. -/
def computeGapReport (contracts : List Contract) (backend : List Endpoint)
    (calls : List FlutterCall) : GapReport :=
  { missing_backend_endpoints := contracts.filterMap fun c =>
      if !hasBackendMatch backend c && !backendHasExactPath backend c then
        some (missingEntryOf c) else none
    backend_without_contract := backend.filterMap fun ep =>
      if !contractCovers contracts ep then
        some ⟨ep.path, pyUpper ep.method, "Endpoint not covered by contract"⟩
      else none
    contracts_not_used_in_flutter := contracts.filterMap fun c =>
      if !usedInFlutter calls c then some (notUsedEntryOf c) else none
    method_mismatches := contracts.filterMap fun c =>
      if !hasBackendMatch backend c && backendHasExactPath backend c then
        some (mismatchEntryOf backend c) else none }

/-- Both gap-case tests depend on a contract only through its raw path
and its uppercased method. -/
theorem gapCase_congr (backend : List Endpoint) {c c' : Contract}
    (hp : c'.path = c.path) (hm : pyUpper c'.method = pyUpper c.method) :
    hasBackendMatch backend c' = hasBackendMatch backend c
      ∧ backendHasExactPath backend c' = backendHasExactPath backend c := by
  constructor <;> simp [hasBackendMatch, backendHasExactPath, hp, hm]

/-- Membership in missing_backend_endpoints comes exactly from a contract
with no path-and-method match and no exact-normalized-path key. -/
theorem mem_missing_iff (contracts : List Contract) (backend : List Endpoint)
    (calls : List FlutterCall) (e : MissingEntry) :
    e ∈ (computeGapReport contracts backend calls).missing_backend_endpoints ↔
      ∃ c ∈ contracts, hasBackendMatch backend c = false
        ∧ backendHasExactPath backend c = false ∧ missingEntryOf c = e := by
  simp only [computeGapReport, List.mem_filterMap]
  constructor
  · rintro ⟨c, hc, hfc⟩
    cases h1 : hasBackendMatch backend c <;> cases h2 : backendHasExactPath backend c <;>
      simp [h1, h2] at hfc
    exact ⟨c, hc, h1, h2, hfc⟩
  · rintro ⟨c, hc, h1, h2, he⟩
    exact ⟨c, hc, by simp [h1, h2, he]⟩

/-- Membership in method_mismatches comes exactly from a contract with no
path-and-method match whose normalized path is an index key. -/
theorem mem_mismatch_iff (contracts : List Contract) (backend : List Endpoint)
    (calls : List FlutterCall) (e : MismatchEntry) :
    e ∈ (computeGapReport contracts backend calls).method_mismatches ↔
      ∃ c ∈ contracts, hasBackendMatch backend c = false
        ∧ backendHasExactPath backend c = true ∧ mismatchEntryOf backend c = e := by
  simp only [computeGapReport, List.mem_filterMap]
  constructor
  · rintro ⟨c, hc, hfc⟩
    cases h1 : hasBackendMatch backend c <;> cases h2 : backendHasExactPath backend c <;>
      simp [h1, h2] at hfc
    exact ⟨c, hc, h1, h2, hfc⟩
  · rintro ⟨c, hc, h1, h2, he⟩
    exact ⟨c, hc, by simp [h1, h2, he]⟩

/-- Two filterMap passes guarded by mutually exclusive tests emit at most
one entry per element in total. -/
theorem two_filterMap_length_le {α β γ : Type} (p q : α → Bool) (f : α → β)
    (g : α → γ) (hpq : ∀ a, p a = true → q a = false) (l : List α) :
    (l.filterMap (fun a => if p a then some (f a) else none)).length
      + (l.filterMap (fun a => if q a then some (g a) else none)).length
      ≤ l.length := by
  induction l with
  | nil => simp
  | cons a rest ih =>
    cases hp : p a with
    | true =>
      have hq : q a = false := hpq a hp
      simp [List.filterMap_cons, hp, hq]
      omega
    | false =>
      cases hq : q a <;> simp [List.filterMap_cons, hp, hq] <;> omega

/-- The two per-contract passes together emit at most one entry per
contract. -/
theorem missing_add_mismatch_le (contracts : List Contract)
    (backend : List Endpoint) (calls : List FlutterCall) :
    (computeGapReport contracts backend calls).missing_backend_endpoints.length
      + (computeGapReport contracts backend calls).method_mismatches.length
      ≤ contracts.length := by
  exact two_filterMap_length_le
    (fun c => !hasBackendMatch backend c && !backendHasExactPath backend c)
    (fun c => !hasBackendMatch backend c && backendHasExactPath backend c)
    missingEntryOf (mismatchEntryOf backend)
    (by intro c h; cases h1 : hasBackendMatch backend c <;>
          cases h2 : backendHasExactPath backend c <;> simp_all)
    contracts

/-- Membership after one insertion step of the string sort. -/
theorem mem_insertStr (x z : String) (l : List String) :
    z ∈ insertStr x l ↔ z = x ∨ z ∈ l := by
  induction l with
  | nil => simp [insertStr]
  | cons y ys ih =>
    by_cases h : y < x
    · rw [insertStr, if_pos h]
      simp only [List.mem_cons, ih]
      tauto
    · rw [insertStr, if_neg h]
      simp only [List.mem_cons]

/-- Insertion preserves ascending order. -/
theorem pairwise_insertStr (x : String) (l : List String)
    (h : l.Pairwise (· ≤ ·)) : (insertStr x l).Pairwise (· ≤ ·) := by
  induction l with
  | nil => simp [insertStr]
  | cons y ys ih =>
    rcases List.pairwise_cons.mp h with ⟨hy, hys⟩
    by_cases hlt : y < x
    · rw [insertStr, if_pos hlt]
      refine List.pairwise_cons.mpr ⟨?_, ih hys⟩
      intro z hz
      rcases (mem_insertStr x z ys).mp hz with rfl | hz
      · exact le_of_lt hlt
      · exact hy z hz
    · rw [insertStr, if_neg hlt]
      refine List.pairwise_cons.mpr ⟨?_, h⟩
      intro z hz
      rcases List.mem_cons.mp hz with rfl | hz
      · exact le_of_not_lt hlt
      · exact le_trans (le_of_not_lt hlt) (hy z hz)

/-- The embedded Python sorted() really sorts ascending. -/
theorem sortStrings_pairwise (l : List String) :
    (sortStrings l).Pairwise (· ≤ ·) := by
  induction l with
  | nil => simp [sortStrings]
  | cons x xs ih => exact pairwise_insertStr x _ ih

/-- The methods list recorded in a method_mismatches entry is sorted. -/
theorem methodsAt_pairwise (backend : List Endpoint) (norm : String) :
    (methodsAt backend norm).Pairwise (· ≤ ·) :=
  sortStrings_pairwise _

/-- Equal missing entries come from contracts with the same raw path and
the same uppercased method. -/
theorem missingEntryOf_inj {c c' : Contract}
    (h : missingEntryOf c' = missingEntryOf c) :
    c'.path = c.path ∧ pyUpper c'.method = pyUpper c.method := by
  simpa [missingEntryOf, MissingEntry.mk.injEq] using h

/-- Equal mismatch entries come from contracts with the same raw path and
the same uppercased method. -/
theorem mismatchEntryOf_inj {backend : List Endpoint} {c c' : Contract}
    (h : mismatchEntryOf backend c' = mismatchEntryOf backend c) :
    c'.path = c.path ∧ pyUpper c'.method = pyUpper c.method := by
  simp only [mismatchEntryOf, MismatchEntry.mk.injEq] at h
  exact ⟨h.1, h.2.1⟩

/-- C1: compute_gap_report assigns each contract to at most one of the two
gap lists, so the missing and mismatch totals sum to at most the number of
contracts, and every contract falls in exactly one of the three cases:
it has a backend match, its entry is in missing_backend_endpoints, or its
entry is in method_mismatches. -/
theorem gap_report_partition (contracts : List Contract)
    (backend : List Endpoint) (calls : List FlutterCall) :
    ((computeGapReport contracts backend calls).missing_backend_endpoints.length
      + (computeGapReport contracts backend calls).method_mismatches.length
      ≤ contracts.length)
    ∧ ∀ c ∈ contracts,
      (hasBackendMatch backend c = true
        ∧ missingEntryOf c ∉
            (computeGapReport contracts backend calls).missing_backend_endpoints
        ∧ mismatchEntryOf backend c ∉
            (computeGapReport contracts backend calls).method_mismatches)
      ∨ (hasBackendMatch backend c = false
        ∧ missingEntryOf c ∈
            (computeGapReport contracts backend calls).missing_backend_endpoints
        ∧ mismatchEntryOf backend c ∉
            (computeGapReport contracts backend calls).method_mismatches)
      ∨ (hasBackendMatch backend c = false
        ∧ missingEntryOf c ∉
            (computeGapReport contracts backend calls).missing_backend_endpoints
        ∧ mismatchEntryOf backend c ∈
            (computeGapReport contracts backend calls).method_mismatches) := by
  refine ⟨missing_add_mismatch_le contracts backend calls, ?_⟩
  intro c hc
  cases h1 : hasBackendMatch backend c with
  | true =>
    left
    refine ⟨rfl, ?_, ?_⟩
    · intro hmem
      rcases (mem_missing_iff contracts backend calls _).mp hmem with
        ⟨c', _, hm', _, heq⟩
      rcases missingEntryOf_inj heq with ⟨hp, hm⟩
      rw [(gapCase_congr backend hp hm).1, h1] at hm'
      exact Bool.noConfusion hm'
    · intro hmem
      rcases (mem_mismatch_iff contracts backend calls _).mp hmem with
        ⟨c', _, hm', _, heq⟩
      rcases mismatchEntryOf_inj heq with ⟨hp, hm⟩
      rw [(gapCase_congr backend hp hm).1, h1] at hm'
      exact Bool.noConfusion hm'
  | false =>
    cases h2 : backendHasExactPath backend c with
    | false =>
      right; left
      refine ⟨rfl, (mem_missing_iff contracts backend calls _).mpr
        ⟨c, hc, h1, h2, rfl⟩, ?_⟩
      intro hmem
      rcases (mem_mismatch_iff contracts backend calls _).mp hmem with
        ⟨c', _, _, he', heq⟩
      rcases mismatchEntryOf_inj heq with ⟨hp, hm⟩
      rw [(gapCase_congr backend hp hm).2, h2] at he'
      exact Bool.noConfusion he'
    | true =>
      right; right
      refine ⟨rfl, ?_, (mem_mismatch_iff contracts backend calls _).mpr
        ⟨c, hc, h1, h2, rfl⟩⟩
      intro hmem
      rcases (mem_missing_iff contracts backend calls _).mp hmem with
        ⟨c', _, _, he', heq⟩
      rcases missingEntryOf_inj heq with ⟨hp, hm⟩
      rw [(gapCase_congr backend hp hm).2, h2] at he'
      exact Bool.noConfusion he'

/-- Witness for the partition theorem at a concrete gap-report input. -/
theorem gap_report_partition_witness :
    ((computeGapReport [⟨"/v1/bar", "POST"⟩] [⟨"/v1/bar", "GET"⟩] []).missing_backend_endpoints.length
      + (computeGapReport [⟨"/v1/bar", "POST"⟩] [⟨"/v1/bar", "GET"⟩] []).method_mismatches.length
      ≤ 1)
    ∧ ((hasBackendMatch [⟨"/v1/bar", "GET"⟩] ⟨"/v1/bar", "POST"⟩ = true
        ∧ missingEntryOf ⟨"/v1/bar", "POST"⟩ ∉
            (computeGapReport [⟨"/v1/bar", "POST"⟩] [⟨"/v1/bar", "GET"⟩] []).missing_backend_endpoints
        ∧ mismatchEntryOf [⟨"/v1/bar", "GET"⟩] ⟨"/v1/bar", "POST"⟩ ∉
            (computeGapReport [⟨"/v1/bar", "POST"⟩] [⟨"/v1/bar", "GET"⟩] []).method_mismatches)
      ∨ (hasBackendMatch [⟨"/v1/bar", "GET"⟩] ⟨"/v1/bar", "POST"⟩ = false
        ∧ missingEntryOf ⟨"/v1/bar", "POST"⟩ ∈
            (computeGapReport [⟨"/v1/bar", "POST"⟩] [⟨"/v1/bar", "GET"⟩] []).missing_backend_endpoints
        ∧ mismatchEntryOf [⟨"/v1/bar", "GET"⟩] ⟨"/v1/bar", "POST"⟩ ∉
            (computeGapReport [⟨"/v1/bar", "POST"⟩] [⟨"/v1/bar", "GET"⟩] []).method_mismatches)
      ∨ (hasBackendMatch [⟨"/v1/bar", "GET"⟩] ⟨"/v1/bar", "POST"⟩ = false
        ∧ missingEntryOf ⟨"/v1/bar", "POST"⟩ ∉
            (computeGapReport [⟨"/v1/bar", "POST"⟩] [⟨"/v1/bar", "GET"⟩] []).missing_backend_endpoints
        ∧ mismatchEntryOf [⟨"/v1/bar", "GET"⟩] ⟨"/v1/bar", "POST"⟩ ∈
            (computeGapReport [⟨"/v1/bar", "POST"⟩] [⟨"/v1/bar", "GET"⟩] []).method_mismatches)) :=
  ⟨(gap_report_partition [⟨"/v1/bar", "POST"⟩] [⟨"/v1/bar", "GET"⟩] []).1,
   (gap_report_partition [⟨"/v1/bar", "POST"⟩] [⟨"/v1/bar", "GET"⟩] []).2
     ⟨"/v1/bar", "POST"⟩ (by decide)⟩

/-- C2 counterexample: a contract whose path matches a backend route only
by proper substring containment (not exact normalized equality) and whose
method has no match is reported as missing, with no method_mismatches
entry, contradicting the claim. -/
theorem mismatch_substring_only_counterexample :
    pathsMatch "/v1/foo" "/api/v1/foo" = true
    ∧ hasBackendMatch [⟨"/api/v1/foo", "GET"⟩] ⟨"/v1/foo", "POST"⟩ = false
    ∧ (computeGapReport [⟨"/v1/foo", "POST"⟩]
        [⟨"/api/v1/foo", "GET"⟩] []).method_mismatches = []
    ∧ missingEntryOf ⟨"/v1/foo", "POST"⟩ ∈
        (computeGapReport [⟨"/v1/foo", "POST"⟩]
          [⟨"/api/v1/foo", "GET"⟩] []).missing_backend_endpoints := by
  decide

/-- C2 amended: when some backend route has exactly the same normalized
path as the contract but no backend route matches on both path and
method, compute_gap_report emits the method_mismatches entry (carrying
the sorted list of uppercased backend methods at that exact normalized
path) and no missing_backend_endpoints entry for that contract. -/
theorem mismatch_exact_path (contracts : List Contract)
    (backend : List Endpoint) (calls : List FlutterCall) (c : Contract)
    (hc : c ∈ contracts) (h1 : hasBackendMatch backend c = false)
    (h2 : backendHasExactPath backend c = true) :
    mismatchEntryOf backend c ∈
        (computeGapReport contracts backend calls).method_mismatches
    ∧ (mismatchEntryOf backend c).backend_methods =
        methodsAt backend (normalizePath c.path)
    ∧ (mismatchEntryOf backend c).backend_methods.Pairwise (· ≤ ·)
    ∧ missingEntryOf c ∉
        (computeGapReport contracts backend calls).missing_backend_endpoints := by
  refine ⟨(mem_mismatch_iff contracts backend calls _).mpr ⟨c, hc, h1, h2, rfl⟩,
    rfl, methodsAt_pairwise backend _, ?_⟩
  intro hmem
  rcases (mem_missing_iff contracts backend calls _).mp hmem with
    ⟨c', _, _, he', heq⟩
  rcases missingEntryOf_inj heq with ⟨hp, hm⟩
  rw [(gapCase_congr backend hp hm).2, h2] at he'
  exact Bool.noConfusion he'

/-- Witness for the amended method-mismatch theorem at a concrete input. -/
theorem mismatch_exact_path_witness :
    mismatchEntryOf [⟨"/v1/bar", "GET"⟩] ⟨"/v1/bar", "POST"⟩ ∈
        (computeGapReport [⟨"/v1/bar", "POST"⟩]
          [⟨"/v1/bar", "GET"⟩] []).method_mismatches
    ∧ (mismatchEntryOf [⟨"/v1/bar", "GET"⟩] ⟨"/v1/bar", "POST"⟩).backend_methods =
        methodsAt [⟨"/v1/bar", "GET"⟩] (normalizePath "/v1/bar")
    ∧ (mismatchEntryOf [⟨"/v1/bar", "GET"⟩]
        ⟨"/v1/bar", "POST"⟩).backend_methods.Pairwise (· ≤ ·)
    ∧ missingEntryOf ⟨"/v1/bar", "POST"⟩ ∉
        (computeGapReport [⟨"/v1/bar", "POST"⟩]
          [⟨"/v1/bar", "GET"⟩] []).missing_backend_endpoints :=
  mismatch_exact_path [⟨"/v1/bar", "POST"⟩] [⟨"/v1/bar", "GET"⟩] []
    ⟨"/v1/bar", "POST"⟩ (by decide) (by decide) (by decide)

/-- Every string contains the empty string. -/
theorem containsL_nil (l : List Char) : containsL l [] = true := by
  cases l <;> rfl

/-- Every string contains the empty string. -/
theorem containsStr_empty (s : String) : containsStr s "" = true :=
  containsL_nil s.data

/-- C10: a path that normalizes to the empty string (empty, or slashes
only) matches every path in both argument orders, and in the gap report a
contract with such a path passes the Flutter usage check against any
non-empty list of UI call records. -/
theorem empty_path_always_matches (p q : String) (calls : List FlutterCall)
    (hq : normalizePath q = "") :
    pathsMatch q p = true ∧ pathsMatch p q = true
      ∧ (calls ≠ [] →
          (calls.any fun call => pathsMatch q call.endpoint) = true) := by
  have hmatch : ∀ r : String, pathsMatch q r = true := by
    intro r
    simp only [pathsMatch, hq]
    rw [containsStr_empty]
    simp
  refine ⟨hmatch p, ?_, ?_⟩
  · simp only [pathsMatch, hq]
    rw [containsStr_empty]
    simp
  · intro hne
    cases calls with
    | nil => exact absurd rfl hne
    | cons c cs => simp [List.any_cons, hmatch c.endpoint]

/-- Witness for the empty-path matching theorem at concrete inputs. -/
theorem empty_path_always_matches_witness :
    pathsMatch "///" "/v1/accounts" = true
      ∧ pathsMatch "/v1/accounts" "///" = true
      ∧ ([(⟨"/v1/other", "GET", "f.dart", 3⟩ : FlutterCall)].any fun call =>
          pathsMatch "///" call.endpoint) = true :=
  ⟨(empty_path_always_matches "/v1/accounts" "///" [⟨"/v1/other", "GET", "f.dart", 3⟩]
      (by decide)).1,
   (empty_path_always_matches "/v1/accounts" "///" [⟨"/v1/other", "GET", "f.dart", 3⟩]
      (by decide)).2.1,
   (empty_path_always_matches "/v1/accounts" "///" [⟨"/v1/other", "GET", "f.dart", 3⟩]
      (by decide)).2.2 (by decide)⟩

/-! ## Structured store (backend/memory/structured_store.py)

The code_entities and relationships tables are modelled as lists of rows
keyed by the TEXT PRIMARY KEY id column; INSERT OR REPLACE deletes any
conflicting row and inserts the new one. Timestamps are modelled as a Nat
supplied by the caller for each write (the wall clock at that write). -/

/-- Row of the code_entities table (metadata JSON blob not read by any
verified property, carried as provenance only). -/
structure EntityRow where
  id : String
  etype : String
  name : String
  filePath : String
  language : String
  createdAt : Nat
  updatedAt : Nat
deriving DecidableEq, Repr

/-- Input to add_entity: the CodeEntity fields the write reads. -/
structure CodeEntityIn where
  id : String
  etype : String
  name : String
  filePath : String
  language : String
deriving DecidableEq, Repr

/-- add_entity: INSERT OR REPLACE INTO code_entities (id, type, name,
file_path, language, metadata, updated_at). The created_at column is
absent from the column list, and SQLite OR REPLACE deletes the conflicting
row and inserts a fresh one, so created_at takes the table default
CURRENT_TIMESTAMP of this write and updated_at takes the datetime.now()
argument: both are the time of the present write. -/
def addEntity (now : Nat) (e : CodeEntityIn) (db : List EntityRow) :
    List EntityRow :=
  db.filter (fun r => r.id != e.id)
    ++ [⟨e.id, e.etype, e.name, e.filePath, e.language, now, now⟩]

/-- Row of the relationships table. -/
structure RelRow where
  id : String
  sourceId : String
  targetId : String
  rtype : String
deriving DecidableEq, Repr

/-- add_relationship: INSERT OR REPLACE INTO relationships; the write
performs no comparison between source_entity_id and target_entity_id, so
every record is accepted. -/
def addRelationship (r : RelRow) (db : List RelRow) : List RelRow :=
  db.filter (fun x => x.id != r.id) ++ [r]

/-- C4 failing input: an entity row upserted twice. After the first write
at time 0 and the second at time 1, the surviving single row carries
created_at = 1: INSERT OR REPLACE reset created_at to the second write
time instead of keeping the first-insert value. -/
theorem created_at_reset_on_upsert :
    addEntity 1 ⟨"python_endpoint_get_user_77", "api_endpoint", "get_user",
        "backend/api/routes/users.py", "python"⟩
      (addEntity 0 ⟨"python_endpoint_get_user_77", "api_endpoint", "get_user",
        "backend/api/routes/users.py", "python"⟩ []) =
      [⟨"python_endpoint_get_user_77", "api_endpoint", "get_user",
        "backend/api/routes/users.py", "python", 1, 1⟩] := by
  decide

/-- C9 counterexample: the relationship upsert accepts a record whose
source and target entity ids coincide; nothing in add_relationship
enforces the claimed invariant. -/
theorem self_edge_accepted :
    (addRelationship ⟨"r1", "x", "x", "calls"⟩ []).any
      (fun r => r.sourceId == r.targetId) = true := by
  decide

/-! ## Entity identifiers and analysis-result storage
(backend/agents/orchestrator.py, backend/agents/memory_agent.py)

Entity ids interpolate Python hash(file_path). CPython salts string
hashing with a per-process value (PYTHONHASHSEED, randomized by default),
so the built-in hash is modelled as a function of the process seed as
well as of the string; only this seed dependence and the within-process
determinism matter to the properties proved below, so the mixing step is
a simple keyed polynomial over the code points. -/

/-- Model of the Python built-in string hash: deterministic within one
process (fixed seed), dependent on the per-process seed. -/
def pyHash (seed : Nat) (s : String) : Nat :=
  s.data.foldl (fun h c => (h * 1000003 + c.toNat) % 2305843009213693951)
    ((seed + 11) % 2305843009213693951)

/-- Entity id written for a Flutter widget by _store_analysis_results:
f-string flutter_widget_{name}_{hash(file_path)}. -/
def flutterWidgetEntityId (seed : Nat) (name filePath : String) : String :=
  "flutter_widget_" ++ name ++ "_" ++ toString (pyHash seed filePath)

/-- Entity id written for a Python endpoint by _store_analysis_results:
f-string python_endpoint_{name}_{hash(file_path)}. -/
def pythonEndpointEntityId (seed : Nat) (name filePath : String) : String :=
  "python_endpoint_" ++ name ++ "_" ++ toString (pyHash seed filePath)

/-- Entity id written for a Python model by _store_analysis_results:
f-string python_model_{name}_{hash(file_path)}. -/
def pythonModelEntityId (seed : Nat) (name filePath : String) : String :=
  "python_model_" ++ name ++ "_" ++ toString (pyHash seed filePath)

/-- _store_analysis_results: upsert one entity per extracted widget,
endpoint and model, in that order; each input is a (name, file_path)
pair, the fields the ids and rows read. -/
def storeAnalysisResults (seed now : Nat) (widgets endpoints models :
    List (String × String)) (db : List EntityRow) : List EntityRow :=
  let db1 := widgets.foldl (fun acc w =>
    addEntity now ⟨flutterWidgetEntityId seed w.1 w.2, "widget", w.1, w.2,
      "dart"⟩ acc) db
  let db2 := endpoints.foldl (fun acc e =>
    addEntity now ⟨pythonEndpointEntityId seed e.1 e.2, "api_endpoint", e.1,
      e.2, "python"⟩ acc) db1
  models.foldl (fun acc m =>
    addEntity now ⟨pythonModelEntityId seed m.1 m.2, "model", m.1, m.2,
      "python"⟩ acc) db2

/-- C3 failing input: the same widget analyzed twice. Within one process
(same seed) the id is identical and the re-run leaves one row; across two
processes with different hash seeds the ids differ and the re-run inserts
a second row for the same construct, so the entity count grows. -/
theorem entity_id_seed_dependent :
    flutterWidgetEntityId 0 "LoginPage" "lib/login.dart"
        ≠ flutterWidgetEntityId 1 "LoginPage" "lib/login.dart"
    ∧ (storeAnalysisResults 0 5 [("LoginPage", "lib/login.dart")] [] []
        (storeAnalysisResults 0 3 [("LoginPage", "lib/login.dart")] [] []
          [])).length = 1
    ∧ (storeAnalysisResults 1 5 [("LoginPage", "lib/login.dart")] [] []
        (storeAnalysisResults 0 3 [("LoginPage", "lib/login.dart")] [] []
          [])).length = 2 := by
  decide

/-! ## Cross-reference builders
(backend/agents/analyzer_agent.py _map_api_calls and _endpoints_match,
backend/agents/orchestrator.py _create_api_mappings,
backend/agents/memory_agent.py _create_cross_references and _paths_match) -/

/-- A backend route record as the cross-reference builders read it
(APIEndpoint fields name, method, path, file_path). -/
structure RouteRecord where
  name : String
  method : String
  path : String
  filePath : String
deriving DecidableEq, Repr

/-- analyzer_agent._endpoints_match: strip slashes, lowercase, then
substring containment in either direction. -/
def endpointsMatchAA (flutterEndpoint pythonEndpoint : String) : Bool :=
  containsStr (pyLower (stripSlashes pythonEndpoint))
      (pyLower (stripSlashes flutterEndpoint))
    || containsStr (pyLower (stripSlashes flutterEndpoint))
      (pyLower (stripSlashes pythonEndpoint))

/-- memory_agent._paths_match: the same strip-slashes/lowercase substring
test in either direction. -/
def pathsMatchMA (path1 path2 : String) : Bool :=
  containsStr (pyLower (stripSlashes path2)) (pyLower (stripSlashes path1))
    || containsStr (pyLower (stripSlashes path1)) (pyLower (stripSlashes path2))

/-- One cross-reference mapping record built by _map_api_calls (the fixed
0.9 confidence constant is a float literal and is not carried). -/
structure ApiMappingRec where
  flutterEndpoint : String
  flutterMethod : String
  flutterFile : String
  pythonEndpoint : String
  pythonMethod : String
  pythonFile : String
  pythonFunction : String
deriving DecidableEq, Repr

/-- The mapping record _map_api_calls appends for a matched pair. -/
def apiMappingRecOf (call : FlutterCall) (ep : RouteRecord) : ApiMappingRec :=
  ⟨call.endpoint, call.method, call.filePath, ep.path, ep.method,
    ep.filePath, ep.name⟩

/-- analyzer_agent._map_api_calls: every call is compared against every
endpoint; a mapping is appended when _endpoints_match holds on the paths
and the uppercased flutter method equals the endpoint method. -/
def mapApiCalls (calls : List FlutterCall) (endpoints : List RouteRecord) :
    List ApiMappingRec :=
  calls.flatMap fun call => endpoints.filterMap fun ep =>
    if endpointsMatchAA call.endpoint ep.path
        && (pyUpper call.method == ep.method) then
      some (apiMappingRecOf call ep)
    else none

/-- One api_mappings row persisted through add_api_mapping (the metadata
blob with the fixed 0.8 confidence float is not carried). -/
structure StoredApiMapping where
  mappingId : String
  flutterWidgetId : String
  pythonEndpointId : String
  mappingType : String
deriving DecidableEq, Repr

/-- The flutter-side id orchestrator._create_api_mappings interpolates:
f-string flutter_api_call_{hash(file_path)}_{line}. -/
def flutterApiCallId (seed : Nat) (call : FlutterCall) : String :=
  "flutter_api_call_" ++ toString (pyHash seed call.filePath) ++ "_"
    ++ toString call.line

/-- The api_mappings row persisted for one (call, endpoint) pair; the row
id is built by add_api_mapping as flutter id, underscore, python id. -/
def storedMappingOf (seed : Nat) (call : FlutterCall) (ep : RouteRecord) :
    StoredApiMapping :=
  ⟨flutterApiCallId seed call ++ "_"
      ++ pythonEndpointEntityId seed ep.name ep.filePath,
    flutterApiCallId seed call,
    pythonEndpointEntityId seed ep.name ep.filePath, "api_call"⟩

/-- orchestrator._create_api_mappings: the persisting pass compares the
raw endpoint strings (endpoint.path in endpoint_path or endpoint_path in
endpoint.path) with no normalization and no method comparison. -/
def createApiMappings (seed : Nat) (calls : List FlutterCall)
    (endpoints : List RouteRecord) : List StoredApiMapping :=
  calls.flatMap fun call => endpoints.filterMap fun ep =>
    if containsStr call.endpoint ep.path
        || containsStr ep.path call.endpoint then
      some (storedMappingOf seed call ep)
    else none

/-- C8 counterexample: persisting api mappings does not apply the
strip-and-lowercase normalization and ignores the HTTP method. A pair
matching under the claimed normalized rule with equal methods yields no
persisted row, while a pair with differing methods yields one. -/
theorem persisted_mapping_counterexample :
    endpointsMatchAA "/Foo" "foo" = true
    ∧ pyUpper "GET" = "GET"
    ∧ createApiMappings 0 [⟨"/Foo", "GET", "f.dart", 1⟩]
        [⟨"get_foo", "GET", "foo", "api.py"⟩] = []
    ∧ (createApiMappings 0 [⟨"/foo", "GET", "f.dart", 1⟩]
        [⟨"make_foo", "POST", "/foo", "api.py"⟩]).length = 1 := by
  decide

/-- C8 amended: the in-memory cross-reference pass creates a mapping
exactly when the normalized substring rule holds and the uppercased
flutter method equals the endpoint method, while the persisting pass
creates a row exactly when one raw path string contains the other,
regardless of method. -/
theorem api_mapping_conditions (seed : Nat) (calls : List FlutterCall)
    (endpoints : List RouteRecord) :
    (∀ m, m ∈ mapApiCalls calls endpoints ↔
      ∃ call ∈ calls, ∃ ep ∈ endpoints,
        endpointsMatchAA call.endpoint ep.path = true
        ∧ pyUpper call.method = ep.method
        ∧ m = apiMappingRecOf call ep)
    ∧ (∀ m, m ∈ createApiMappings seed calls endpoints ↔
      ∃ call ∈ calls, ∃ ep ∈ endpoints,
        (containsStr call.endpoint ep.path = true
          ∨ containsStr ep.path call.endpoint = true)
        ∧ m = storedMappingOf seed call ep) := by
  constructor
  · intro m
    simp only [mapApiCalls, List.mem_flatMap, List.mem_filterMap]
    constructor
    · rintro ⟨call, hcall, ep, hep, hif⟩
      cases h1 : endpointsMatchAA call.endpoint ep.path <;>
        cases h2 : pyUpper call.method == ep.method <;>
        simp [h1, h2] at hif
      exact ⟨call, hcall, ep, hep, h1, by simpa using h2, hif.symm⟩
    · rintro ⟨call, hcall, ep, hep, h1, h2, rfl⟩
      exact ⟨call, hcall, ep, hep, by simp [h1, h2]⟩
  · intro m
    simp only [createApiMappings, List.mem_flatMap, List.mem_filterMap]
    constructor
    · rintro ⟨call, hcall, ep, hep, hif⟩
      cases h1 : containsStr call.endpoint ep.path <;>
        cases h2 : containsStr ep.path call.endpoint <;>
        simp [h1, h2] at hif <;>
        exact ⟨call, hcall, ep, hep, by simp [h1, h2], hif.symm⟩
    · rintro ⟨call, hcall, ep, hep, h12, rfl⟩
      refine ⟨call, hcall, ep, hep, ?_⟩
      rcases h12 with h1 | h2
      · simp [h1]
      · simp [h2]

/-- Witness for the mapping-condition theorem: a concrete matched pair is
in both mapping lists. -/
theorem api_mapping_conditions_witness :
    apiMappingRecOf ⟨"/v1/foo", "get", "f.dart", 2⟩
        ⟨"get_foo", "GET", "/api/v1/foo", "api.py"⟩ ∈
      mapApiCalls [⟨"/v1/foo", "get", "f.dart", 2⟩]
        [⟨"get_foo", "GET", "/api/v1/foo", "api.py"⟩]
    ∧ storedMappingOf 0 ⟨"/v1/foo", "get", "f.dart", 2⟩
        ⟨"get_foo", "GET", "/api/v1/foo", "api.py"⟩ ∈
      createApiMappings 0 [⟨"/v1/foo", "get", "f.dart", 2⟩]
        [⟨"get_foo", "GET", "/api/v1/foo", "api.py"⟩] :=
  ⟨((api_mapping_conditions 0 [⟨"/v1/foo", "get", "f.dart", 2⟩]
      [⟨"get_foo", "GET", "/api/v1/foo", "api.py"⟩]).1 _).mpr
      ⟨⟨"/v1/foo", "get", "f.dart", 2⟩, by decide,
        ⟨"get_foo", "GET", "/api/v1/foo", "api.py"⟩, by decide,
        by decide, by decide, rfl⟩,
   ((api_mapping_conditions 0 [⟨"/v1/foo", "get", "f.dart", 2⟩]
      [⟨"get_foo", "GET", "/api/v1/foo", "api.py"⟩]).2 _).mpr
      ⟨⟨"/v1/foo", "get", "f.dart", 2⟩, by decide,
        ⟨"get_foo", "GET", "/api/v1/foo", "api.py"⟩, by decide,
        Or.inr (by decide), rfl⟩⟩

/-- Data of an appended string is the appended data. -/
theorem strDataAppend (x y : String) : (x ++ y).data = x.data ++ y.data := by
  cases x
  cases y
  rfl

/-- The calls relationship memory_agent._create_cross_references builds
for one matched (call, endpoint) pair. -/
def crossRefRelOf (seed : Nat) (call : FlutterCall) (ep : RouteRecord) :
    RelRow :=
  ⟨"api_call_" ++ toString (pyHash seed call.filePath) ++ "_"
      ++ toString (pyHash seed ep.filePath),
    flutterApiCallId seed call,
    pythonEndpointEntityId seed ep.name ep.filePath, "calls"⟩

/-- memory_agent._create_cross_references: a calls relationship per
(call, endpoint) pair whose paths match under _paths_match. -/
def crossRefRelationships (seed : Nat) (calls : List FlutterCall)
    (endpoints : List RouteRecord) : List RelRow :=
  calls.flatMap fun call => endpoints.filterMap fun ep =>
    if pathsMatchMA call.endpoint ep.path then
      some (crossRefRelOf seed call ep)
    else none

/-- A string starting with the flutter-call marker never equals one
starting with the python-endpoint marker. -/
theorem flutter_id_ne_python_id (a b : String) :
    ("flutter_api_call_" ++ a) ≠ ("python_endpoint_" ++ b) := by
  intro h
  have h2 := congrArg String.data h
  rw [strDataAppend, strDataAppend] at h2
  have h3 : List.head? ("flutter_api_call_".data ++ a.data) = some 'f' := rfl
  have h4 : List.head? ("python_endpoint_".data ++ b.data) = some 'p' := rfl
  rw [h2, h4] at h3
  exact absurd (Option.some.inj h3) (by decide)

/-- C9 amended: the relationships the pipeline actually creates always
join a flutter-call source to a python-endpoint target, so their source
and target entity ids differ. -/
theorem cross_ref_no_self_edge (seed : Nat) (calls : List FlutterCall)
    (endpoints : List RouteRecord) (r : RelRow)
    (hr : r ∈ crossRefRelationships seed calls endpoints) :
    r.sourceId ≠ r.targetId := by
  simp only [crossRefRelationships, List.mem_flatMap, List.mem_filterMap] at hr
  rcases hr with ⟨call, _, ep, _, hif⟩
  cases h1 : pathsMatchMA call.endpoint ep.path <;> simp [h1] at hif
  rw [← hif]
  exact flutter_id_ne_python_id _ _

/-- Witness for the no-self-edge theorem at a concrete created
relationship. -/
theorem cross_ref_no_self_edge_witness :
    (crossRefRelOf 0 ⟨"/v1/foo", "get", "f.dart", 2⟩
        ⟨"get_foo", "GET", "/api/v1/foo", "api.py"⟩).sourceId ≠
      (crossRefRelOf 0 ⟨"/v1/foo", "get", "f.dart", 2⟩
        ⟨"get_foo", "GET", "/api/v1/foo", "api.py"⟩).targetId :=
  cross_ref_no_self_edge 0 [⟨"/v1/foo", "get", "f.dart", 2⟩]
    [⟨"get_foo", "GET", "/api/v1/foo", "api.py"⟩] _ (by decide)

/-! ## Backend extractor (backend/analyzers/python_analyzer.py)

The decorator expressions are embedded as the fragment of the Python ast
node language that _extract_fastapi_endpoints inspects: Name, Attribute,
Constant, Call and a catch-all for every other node kind. The legacy
ast.Str branch of _extract_path_from_decorator is dead on Python 3.8+
parsers (ast.parse emits Constant) and is not modelled. -/

/-- A Python literal constant (ast.Constant payload). -/
inductive PyConst where
  | str (s : String)
  | int (n : Int)
  | bool (b : Bool)
  | noneConst
deriving DecidableEq, Repr

/-- The decorator expression fragment inspected by the route extractor. -/
inductive PyExpr where
  | name (id : String)
  | attribute (value : PyExpr) (attr : String)
  | constant (val : PyConst)
  | call (func : PyExpr) (args : List PyExpr)
  | otherNode

/-- A function definition as the route extractor reads it: its name, its
line number and its decorator list. -/
structure PyFuncDef where
  name : String
  lineno : Nat
  decorators : List PyExpr

/-- The decorator attribute names recognized as HTTP verbs. -/
def httpVerbs : List String := ["get", "post", "put", "delete", "patch"]

/-- _extract_path_from_decorator: the first positional argument when it
is a literal Constant node, the empty string otherwise. -/
def extractPathFromArgs (args : List PyExpr) : PyConst :=
  match args with
  | PyExpr.constant v :: _ => v
  | _ => PyConst.str ""

/-- An extracted route record (APIEndpoint fields the verified property
reads; parameters, return type, dependency and middleware lists are
extracted from other nodes and are omitted here). -/
structure RouteRec where
  name : String
  method : String
  path : PyConst
  lineNumber : Nat
deriving DecidableEq, Repr

/-- _extract_fastapi_endpoints: walk the function definitions; for every
decorator of each function that is a Call whose func is an Attribute with
one of the five verb names, append a record with the function name, the
uppercased attribute name, the extracted path and the line number. -/
def extractFastapiEndpoints (fns : List PyFuncDef) : List RouteRec :=
  fns.flatMap fun f => f.decorators.filterMap fun d =>
    match d with
    | PyExpr.call (PyExpr.attribute _ attr) args =>
      if httpVerbs.contains attr then
        some ⟨f.name, pyUpper attr, extractPathFromArgs args, f.lineno⟩
      else none
    | _ => none

/-- C5: for every decorated function whose decorator is a call on an
attribute named one of the five verbs, the extracted record has the
uppercased attribute name as method, and as path the first positional
argument when it is a literal constant and the empty string when there is
no literal first argument. -/
theorem route_method_and_path (fns : List PyFuncDef) (f : PyFuncDef)
    (v : PyExpr) (attr : String) (args : List PyExpr) (hf : f ∈ fns)
    (hd : PyExpr.call (PyExpr.attribute v attr) args ∈ f.decorators)
    (hverb : httpVerbs.contains attr = true) :
    (⟨f.name, pyUpper attr, extractPathFromArgs args, f.lineno⟩ : RouteRec)
        ∈ extractFastapiEndpoints fns
    ∧ (∀ c rest, args = PyExpr.constant c :: rest →
        extractPathFromArgs args = c)
    ∧ ((∀ c rest, args ≠ PyExpr.constant c :: rest) →
        extractPathFromArgs args = PyConst.str "") := by
  refine ⟨?_, ?_, ?_⟩
  · simp only [extractFastapiEndpoints, List.mem_flatMap, List.mem_filterMap]
    refine ⟨f, hf, PyExpr.call (PyExpr.attribute v attr) args, hd, ?_⟩
    exact if_pos hverb
  · rintro c rest rfl
    rfl
  · intro hno
    match args with
    | [] => rfl
    | PyExpr.constant c :: rest => exact absurd rfl (hno c rest)
    | PyExpr.name _ :: _ => rfl
    | PyExpr.attribute _ _ :: _ => rfl
    | PyExpr.call _ _ :: _ => rfl
    | PyExpr.otherNode :: _ => rfl

/-- Witness for the route extraction theorem on a concrete router.get
decorator with a literal path. -/
theorem route_method_and_path_witness :
    (⟨"get_user", pyUpper "get",
        extractPathFromArgs [PyExpr.constant (PyConst.str "/users/{user_id}")],
        7⟩ : RouteRec)
      ∈ extractFastapiEndpoints
        [⟨"get_user", 7,
          [PyExpr.call (PyExpr.attribute (PyExpr.name "router") "get")
            [PyExpr.constant (PyConst.str "/users/{user_id}")]]⟩]
    ∧ extractPathFromArgs [PyExpr.constant (PyConst.str "/users/{user_id}")]
        = PyConst.str "/users/{user_id}" :=
    ⟨(route_method_and_path
        [⟨"get_user", 7,
          [PyExpr.call (PyExpr.attribute (PyExpr.name "router") "get")
            [PyExpr.constant (PyConst.str "/users/{user_id}")]]⟩]
        ⟨"get_user", 7,
          [PyExpr.call (PyExpr.attribute (PyExpr.name "router") "get")
            [PyExpr.constant (PyConst.str "/users/{user_id}")]]⟩
        (PyExpr.name "router") "get"
        [PyExpr.constant (PyConst.str "/users/{user_id}")]
        (by simp) (by simp) (by decide)).1,
     (route_method_and_path
        [⟨"get_user", 7,
          [PyExpr.call (PyExpr.attribute (PyExpr.name "router") "get")
            [PyExpr.constant (PyConst.str "/users/{user_id}")]]⟩]
        ⟨"get_user", 7,
          [PyExpr.call (PyExpr.attribute (PyExpr.name "router") "get")
            [PyExpr.constant (PyConst.str "/users/{user_id}")]]⟩
        (PyExpr.name "router") "get"
        [PyExpr.constant (PyConst.str "/users/{user_id}")]
        (by simp) (by simp) (by decide)).2.1
       (PyConst.str "/users/{user_id}") [] rfl⟩

/-! ## UI extractor (backend/analyzers/flutter_analyzer.py)

The two widget-declaration regexes and the client-call regexes are
concrete patterns, hand-compiled here into character-list matchers with
the same greedy/deterministic semantics; the re.finditer driver is a
left-to-right position scan recording non-overlapping matches and
continuing at each match end. The source operates on ASCII Dart text, so
the regex classes backslash-s and backslash-w are embedded as their ASCII
character sets. -/

/-- The regex whitespace class: space, tab, newline, carriage return,
vertical tab, form feed. -/
def isWsChar (c : Char) : Bool :=
  c == ' ' || c == '\t' || c == '\n' || c == '\r'
    || c == Char.ofNat 11 || c == Char.ofNat 12

/-- The regex word class on ASCII: letters, digits, underscore. -/
def isWordChar (c : Char) : Bool := c.isAlphanum || c == '_'

/-- Consume an exact literal at the head of the input, returning the
remaining input. -/
def eatLit : List Char → List Char → Option (List Char)
  | rest, [] => some rest
  | [], _ :: _ => none
  | a :: as, b :: bs => if a == b then eatLit as bs else none

/-- Matcher for the widget-declaration pattern at the head of the input:
the keyword class, whitespace, a captured word (the widget name),
whitespace, the keyword extends, whitespace, the base-class literal,
optional whitespace, an opening brace. Greedy runs are maximal runs, as
for the source regex, which allows no other match here. Returns the
match length and the captured name. -/
def matchWidgetDecl (l : List Char) (base : List Char) :
    Option (Nat × String) :=
  match eatLit l ("class".data) with
  | none => none
  | some r1 =>
    let ws1 := r1.takeWhile isWsChar
    let r2 := r1.dropWhile isWsChar
    if ws1.isEmpty then none else
    let nm := r2.takeWhile isWordChar
    let r3 := r2.dropWhile isWordChar
    if nm.isEmpty then none else
    let ws2 := r3.takeWhile isWsChar
    let r4 := r3.dropWhile isWsChar
    if ws2.isEmpty then none else
    match eatLit r4 ("extends".data) with
    | none => none
    | some r5 =>
      let ws3 := r5.takeWhile isWsChar
      let r6 := r5.dropWhile isWsChar
      if ws3.isEmpty then none else
      match eatLit r6 base with
      | none => none
      | some r7 =>
        let ws4 := r7.takeWhile isWsChar
        let r8 := r7.dropWhile isWsChar
        match r8 with
        | c :: _ =>
          if c = '{' then
            some (5 + ws1.length + nm.length + ws2.length + 7 + ws3.length
              + base.length + ws4.length + 1, ⟨nm⟩)
          else none
        | [] => none

/-- re.finditer driver: try the matcher at every position left to right;
on a match record (start position, payload) and continue at the match
end. The structural fuel argument starts at the text length, an
upper bound on the number of steps since every step consumes at least one
character. -/
def scanMatches (matcher : List Char → Option (Nat × String)) :
    Nat → List Char → Nat → List (Nat × String)
  | 0, _, _ => []
  | _ + 1, [], _ => []
  | fuel + 1, c :: rest, pos =>
    match matcher (c :: rest) with
    | some (len, payload) =>
      (pos, payload)
        :: scanMatches matcher fuel (List.drop len (c :: rest)) (pos + len)
    | none => scanMatches matcher fuel rest (pos + 1)

/-- Number of newline characters, as Python str.count of a newline. -/
def countNl (l : List Char) : Nat := l.countP (· == '\n')

/-- The 1-based line number of a character position: newlines in the
text before it, plus one. -/
def lineOfPos (content : String) (pos : Nat) : Nat :=
  countNl (content.data.take pos) + 1

/-- The character loop of _find_class_end: walk the text from the match
start carrying brace_count and in_class; an opening brace increments the
count and sets in_class; a closing brace decrements the count and, when
in_class holds and the count reaches zero, stops; returns the offset of
the stopping character. -/
def classEndScan : List Char → Int → Bool → Option Nat
  | [], _, _ => none
  | c :: rest, count, inC =>
    if c == '{' then (classEndScan rest (count + 1) true).map (· + 1)
    else if c == '}' then
      if inC && (count - 1 == 0) then some 0
      else (classEndScan rest (count - 1) inC).map (· + 1)
    else (classEndScan rest count inC).map (· + 1)

/-- _find_class_end: the line of the character where the scan stops, or
the last line of the file when it never does. -/
def findClassEnd (content : String) (startPos : Nat) : Nat :=
  match classEndScan (content.data.drop startPos) 0 false with
  | some off => countNl (content.data.take (startPos + off)) + 1
  | none => countNl content.data + 1

/-- An extracted widget record (FlutterWidget fields the verified
property reads; the per-widget dependency, api-call, navigation, field
and validator sublists are extracted by other scans and omitted here). -/
structure WidgetRec where
  name : String
  wtype : String
  lineStart : Nat
  lineEnd : Nat
deriving DecidableEq, Repr

/-- All matches of the widget-declaration pattern with the given base
class, with their start positions. -/
def scanWidgetDecls (content : String) (base : String) : List (Nat × String) :=
  scanMatches (fun l => matchWidgetDecl l base.data)
    content.data.length content.data 0

/-- The record _extract_widgets appends for one match. -/
def widgetRecOf (content : String) (wtype : String) (m : Nat × String) :
    WidgetRec :=
  ⟨m.2, wtype, lineOfPos content m.1, findClassEnd content m.1⟩

/-- _extract_widgets: one record per match of the StatelessWidget
pattern, then one per match of the StatefulWidget pattern. -/
def extractWidgets (content : String) : List WidgetRec :=
  (scanWidgetDecls content "StatelessWidget").map
      (widgetRecOf content "StatelessWidget")
    ++ (scanWidgetDecls content "StatefulWidget").map
      (widgetRecOf content "StatefulWidget")

/-- Offset of the first opening brace. -/
def firstOpenIdx : List Char → Option Nat
  | [] => none
  | c :: rest =>
    if c == '{' then some 0 else (firstOpenIdx rest).map (· + 1)

/-- Depth scan from inside the first opening brace: the offset of the
character at which the depth returns to zero. -/
def depthScan : List Char → Nat → Option Nat
  | [], _ => none
  | c :: rest, d =>
    if c == '{' then (depthScan rest (d + 1)).map (· + 1)
    else if c == '}' then
      if d == 1 then some 0 else (depthScan rest (d - 1)).map (· + 1)
    else (depthScan rest d).map (· + 1)

/-- The scope end as the specification words it: the line where the brace
depth, counted from the first opening brace after the match position,
returns to zero; the last line of the file when the braces never
rebalance (or no brace opens at all). -/
def specClassEnd (content : String) (startPos : Nat) : Nat :=
  match firstOpenIdx (content.data.drop startPos) with
  | none => countNl content.data + 1
  | some b =>
    match depthScan (List.drop (b + 1) (content.data.drop startPos)) 1 with
    | some off => countNl (content.data.take (startPos + b + 1 + off)) + 1
    | none => countNl content.data + 1

/-- The apostrophe character, as accepted by the quote classes of the
client-call regexes. -/
def quoteChar : Char := Char.ofNat 39

/-- Matcher for one client-call pattern at the head of the input: the
fixed literal (client object, dot, verb, opening parenthesis and for the
request helper the Uri.parse opening), a quote, a maximal nonempty run of
non-quote characters (the captured endpoint), a quote. -/
def matchClientCall (lit : List Char) (l : List Char) :
    Option (Nat × String) :=
  match eatLit l lit with
  | none => none
  | some r1 =>
    match r1 with
    | [] => none
    | q :: r2 =>
      if q == quoteChar || q == '"' then
        let ep := r2.takeWhile (fun c => !(c == quoteChar || c == '"'))
        if ep.isEmpty then none
        else
          match r2.drop ep.length with
          | q2 :: _ =>
            if q2 == quoteChar || q2 == '"' then
              some (lit.length + 1 + ep.length + 1, ⟨ep⟩)
            else none
          | [] => none
      else none

/-- Python str.split on a single separator character, over char lists. -/
def splitOnChar (sep : Char) : List Char → List (List Char)
  | [] => [[]]
  | c :: rest =>
    match splitOnChar sep rest with
    | [] => if c == sep then [[], []] else [[c]]
    | h :: t => if c == sep then [] :: h :: t else (c :: h) :: t

/-- Python str.split(sep) for a one-character separator. -/
def pySplitChar (s : String) (sep : Char) : List String :=
  (splitOnChar sep s.data).map (fun l => ⟨l⟩)

/-- The method string _extract_api_calls derives from a pattern:
pattern.split(backslash)[1].split(open-parenthesis)[0]. -/
def methodFromPattern (pat : String) : String :=
  (pySplitChar ((pySplitChar pat '\\').getD 1 "") '(').headD ""

/-- The dio client-call regex source text for one verb. -/
def dioPattern (verb : String) : String :=
  "dio\\." ++ verb ++ "\\([\\" ++ String.singleton quoteChar ++ "\"]([^\\"
    ++ String.singleton quoteChar ++ "\"]+)[\\"
    ++ String.singleton quoteChar ++ "\"]"

/-- The http request-helper regex source text for one verb. -/
def httpPattern (verb : String) : String :=
  "http\\." ++ verb ++ "\\(Uri\\.parse\\([\\" ++ String.singleton quoteChar
    ++ "\"]([^\\" ++ String.singleton quoteChar ++ "\"]+)[\\"
    ++ String.singleton quoteChar ++ "\"]"

/-- An extracted outbound-call record. -/
structure ApiCallRec where
  ctype : String
  method : String
  endpoint : String
  filePath : String
  line : Nat
deriving DecidableEq, Repr

/-- The verbs of the direct dio client patterns. -/
def dioVerbs : List String := ["get", "post", "put", "delete"]

/-- The verbs of the http request-helper patterns. -/
def httpPkgVerbs : List String := ["get", "post"]

/-- _extract_api_calls: scan the content once per pattern; each match
records the type tag, the method derived from the pattern text, the
captured endpoint, the file path and the 1-based match line. -/
def extractApiCalls (content : String) (filePath : String) :
    List ApiCallRec :=
  (dioVerbs.flatMap fun v =>
    (scanMatches (matchClientCall ("dio." ++ v ++ "(").data)
        content.data.length content.data 0).map fun m =>
      ⟨"dio", methodFromPattern (dioPattern v), m.2, filePath,
        lineOfPos content m.1⟩)
  ++ (httpPkgVerbs.flatMap fun v =>
    (scanMatches (matchClientCall ("http." ++ v ++ "(Uri.parse(").data)
        content.data.length content.data 0).map fun m =>
      ⟨"http", methodFromPattern (httpPattern v), m.2, filePath,
        lineOfPos content m.1⟩)

/-- C7 failing input: the Dart line await dio.post with the quoted path
/api/v1/auth/login. The recorded method is the segment of the pattern
text between its first two backslashes, which starts with the escaped
dot: the record carries .post, not post, for every match of every
pattern, contradicting the analyzer unit tests that assert post. -/
theorem api_call_method_keeps_leading_dot :
    methodFromPattern (dioPattern "post") = ".post"
    ∧ extractApiCalls "await dio.post(\"/api/v1/auth/login\");" "f.dart" =
        [⟨"dio", ".post", "/api/v1/auth/login", "f.dart", 1⟩]
    ∧ (extractApiCalls "await dio.post(\"/api/v1/auth/login\");" "f.dart").all
        (fun r => r.method != "post") = true
    ∧ methodFromPattern (httpPattern "get") = ".get" := by
  decide

/-- The structural scan agrees with the depth scan once inside the class:
with in_class set and a positive count, the remaining walk of
_find_class_end is the plain depth scan. -/
theorem classEndScan_eq_depthScan (l : List Char) : ∀ d : Nat, 1 ≤ d →
    classEndScan l (d : Int) true = depthScan l d := by
  induction l with
  | nil => intro d _; rfl
  | cons c rest ih =>
    intro d hd
    by_cases h1 : c == '{'
    · have hcast : ((d : Int) + 1) = ((d + 1 : Nat) : Int) := by push_cast; ring
      simp only [classEndScan, depthScan, h1, if_true]
      rw [hcast, ih (d + 1) (by omega)]
    · by_cases h2 : c == '}'
      · by_cases hd1 : d = 1
        · subst hd1
          simp only [classEndScan, depthScan, h1, h2]
          norm_num
        · have hbig : 2 ≤ d := by omega
          have hLcond : (true && ((d : Int) - 1 == 0)) = false := by
            simp only [Bool.true_and, beq_eq_false_iff_ne]
            omega
          have hRcond : (d == 1) = false := by
            simp only [beq_eq_false_iff_ne]
            omega
          have hcast : ((d : Int) - 1) = ((d - 1 : Nat) : Int) := by
            push_cast [Nat.cast_sub (by omega : 1 ≤ d)]
            ring
          simp only [classEndScan, depthScan, h1, h2, hLcond, hRcond,
            if_true, if_false, Bool.false_eq_true]
          rw [hcast, ih (d - 1) (by omega)]
      · simp only [classEndScan, depthScan, h1, h2, Bool.false_eq_true,
          if_false]
        rw [ih d hd]

/-- Without any opening brace in_class never becomes true and the scan of
_find_class_end never stops, for any running count. -/
theorem classEndScan_no_open (l : List Char) (h : '{' ∉ l) :
    ∀ cnt : Int, classEndScan l cnt false = none := by
  induction l with
  | nil => intro cnt; rfl
  | cons c rest ih =>
    intro cnt
    have hc : ¬(c == '{') = true := by
      simp only [beq_iff_eq]
      exact fun hh => h (hh ▸ List.mem_cons_self c rest)
    have hrest : '{' ∉ rest := fun hh => h (List.mem_cons_of_mem c hh)
    by_cases h2 : c == '}'
    · simp only [classEndScan, hc, h2, if_true, if_false, Bool.false_and,
        Bool.false_eq_true, ih hrest]
      rfl
    · simp only [classEndScan, hc, h2, if_false, Bool.false_eq_true,
        ih hrest]
      rfl

/-- A text has no first opening brace exactly when it has no opening
brace at all. -/
theorem firstOpenIdx_eq_none (l : List Char) :
    firstOpenIdx l = none ↔ '{' ∉ l := by
  induction l with
  | nil => simp [firstOpenIdx]
  | cons c rest ih =>
    by_cases hc : c == '{'
    · have : c = '{' := by simpa using hc
      subst this
      simp [firstOpenIdx]
    · have hne : ¬c = '{' := by simpa using hc
      have hne' : ¬('{' = c) := fun hh => hne hh.symm
      simp [firstOpenIdx, hc, Option.map_eq_none', ih, hne']

/-- Before the first opening brace the scan of _find_class_end only skips
characters when none of them is a closing brace, so it agrees with the
depth scan started inside that brace. -/
theorem classEndScan_phase1 (l : List Char) : ∀ b : Nat,
    firstOpenIdx l = some b → '}' ∉ l.take b →
    classEndScan l 0 false
      = (depthScan (l.drop (b + 1)) 1).map (· + (b + 1)) := by
  induction l with
  | nil => intro b hb _; exact absurd hb (by simp [firstOpenIdx])
  | cons c rest ih =>
    intro b hb hpre
    by_cases hc : c == '{'
    · have hb0 : b = 0 := by
        simp only [firstOpenIdx, hc, if_true] at hb
        exact (Option.some.inj hb).symm
      subst hb0
      have hphase2 : classEndScan rest ((1 : Nat) : Int) true
          = depthScan rest 1 := classEndScan_eq_depthScan rest 1 (by omega)
      simp only [classEndScan, hc, if_true, List.drop_succ_cons,
        List.drop_zero]
      rw [show ((0 : Int) + 1) = ((1 : Nat) : Int) by norm_num, hphase2]
    · rcases hrest : firstOpenIdx rest with _ | b'
      · rw [firstOpenIdx, if_neg (by simpa using hc), hrest] at hb
        exact absurd hb (by simp)
      · rw [firstOpenIdx, if_neg (by simpa using hc), hrest] at hb
        have hb' : b = b' + 1 := by
          simpa using hb.symm
        subst hb'
        have hcne : ¬c = '}' := by
          intro hcc
          exact hpre (by simp [List.take_succ_cons, hcc])
        have hpre' : '}' ∉ rest.take b' := by
          intro hm
          exact hpre (by simp [List.take_succ_cons, hm])
        have hih := ih b' hrest hpre'
        simp only [classEndScan, hc, if_false, Bool.false_eq_true,
          beq_iff_eq, hcne, hih, List.drop_succ_cons]
        cases hds : depthScan (rest.drop (b' + 1)) 1 <;> simp [hds]
        omega

/-- The class-end computation agrees with the specification-side depth
count whenever no closing brace precedes the first opening brace of the
scanned region. -/
theorem findClassEnd_eq_spec (content : String) (startPos : Nat)
    (H : ∀ b, firstOpenIdx (content.data.drop startPos) = some b →
      '}' ∉ (content.data.drop startPos).take b) :
    findClassEnd content startPos = specClassEnd content startPos := by
  unfold findClassEnd specClassEnd
  rcases hf : firstOpenIdx (content.data.drop startPos) with _ | b
  · rw [classEndScan_no_open _ ((firstOpenIdx_eq_none _).mp hf) 0]
  · rw [classEndScan_phase1 _ b hf (H b hf)]
    rcases hd : depthScan (List.drop (b + 1) (content.data.drop startPos)) 1
      with _ | off
    · simp only [hd, Option.map_none']
    · simp only [hd, Option.map_some']
      have harith : startPos + (off + (b + 1)) = startPos + b + 1 + off := by
        omega
      rw [harith]

/-- Every recorded match start carries a position at which the matcher
succeeds with the recorded payload. -/
theorem scanMatches_sound (matcher : List Char → Option (Nat × String)) :
    ∀ (fuel : Nat) (l : List Char) (pos : Nat) (q : Nat × String),
      q ∈ scanMatches matcher fuel l pos →
      pos ≤ q.1 ∧ ∃ len, matcher (List.drop (q.1 - pos) l) = some (len, q.2) := by
  intro fuel
  induction fuel with
  | zero => intro l pos q hq; simp [scanMatches] at hq
  | succ n ih =>
    intro l pos q hq
    cases l with
    | nil => simp [scanMatches] at hq
    | cons c rest =>
      rcases hm : matcher (c :: rest) with _ | p
      · simp only [scanMatches, hm] at hq
        rcases ih rest (pos + 1) q hq with ⟨hle, len, hmat⟩
        refine ⟨by omega, len, ?_⟩
        have hdr : List.drop (q.1 - pos) (c :: rest)
            = List.drop (q.1 - (pos + 1)) rest := by
          rw [show q.1 - pos = (q.1 - (pos + 1)) + 1 by omega,
            List.drop_succ_cons]
        rw [hdr]
        exact hmat
      · obtain ⟨len0, pl0⟩ := p
        simp only [scanMatches, hm] at hq
        rcases List.mem_cons.mp hq with rfl | hq'
        · exact ⟨le_refl _, len0, by simpa using hm⟩
        · rcases ih _ _ _ hq' with ⟨hle, len, hmat⟩
          refine ⟨by omega, len, ?_⟩
          rw [List.drop_drop] at hmat
          rw [show q.1 - pos = len0 + (q.1 - (pos + len0)) by omega]
          exact hmat

/-- A consumed literal is a layout of the input. -/
theorem eatLit_eq_some : ∀ {lit l r : List Char},
    eatLit l lit = some r → l = lit ++ r := by
  intro lit
  induction lit with
  | nil =>
    intro l r h
    cases l with
    | nil =>
      have hr : ([] : List Char) = r := by simpa [eatLit] using h
      simp [← hr]
    | cons a as =>
      have hr : a :: as = r := by simpa [eatLit] using h
      simp [← hr]
  | cons b bs ih =>
    intro l r h
    cases l with
    | nil => exact absurd h (by simp [eatLit])
    | cons a as =>
      by_cases hab : (a == b) = true
      · have hab' : a = b := by simpa using hab
        subst hab'
        rw [eatLit, if_pos hab] at h
        simp [ih h]
      · have hab' : (a == b) = false := by simpa using hab
        rw [eatLit, if_neg (by simp [hab'])] at h
        exact absurd h (by simp)

/-- Whitespace characters are not braces. -/
theorem wsChar_not_brace {c : Char} (h : isWsChar c = true) :
    c ≠ '{' ∧ c ≠ '}' := by
  simp only [isWsChar, Bool.or_eq_true, beq_iff_eq] at h
  rcases h with ((((h | h) | h) | h) | h) | h <;> subst h <;>
    exact ⟨by decide, by decide⟩

/-- Word characters are not braces. -/
theorem wordChar_not_brace {c : Char} (h : isWordChar c = true) :
    c ≠ '{' ∧ c ≠ '}' := by
  simp only [isWordChar, Bool.or_eq_true, beq_iff_eq] at h
  rcases h with h | h
  · refine ⟨?_, ?_⟩ <;> rintro rfl <;> exact absurd h (by decide)
  · subst h; exact ⟨by decide, by decide⟩

/-- Members of a takeWhile run satisfy the predicate. -/
theorem mem_takeWhile {p : Char → Bool} :
    ∀ {l : List Char} {a : Char}, a ∈ l.takeWhile p → p a = true := by
  intro l
  induction l with
  | nil => intro a ha; simp [List.takeWhile] at ha
  | cons c t ih =>
    intro a ha
    rcases hp : p c with _ | _
    · rw [List.takeWhile, hp] at ha
      simp at ha
    · rw [List.takeWhile, hp] at ha
      rcases List.mem_cons.mp ha with rfl | ha'
      · exact hp
      · exact ih ha'

/-- The first opening brace after a brace-free block sits at the length
of the block. -/
theorem firstOpenIdx_append (P tail : List Char) (hP : '{' ∉ P) :
    firstOpenIdx (P ++ '{' :: tail) = some P.length := by
  induction P with
  | nil => simp [firstOpenIdx]
  | cons c cs ih =>
    have hc : (c == '{') = false := by
      simp only [beq_eq_false_iff_ne]
      exact fun hcc => hP (hcc ▸ List.mem_cons_self c cs)
    have hcs : '{' ∉ cs := fun hm => hP (List.mem_cons_of_mem c hm)
    simp only [List.cons_append, firstOpenIdx, hc, Bool.false_eq_true,
      if_false, List.append_eq, ih hcs, Option.map_some', List.length_cons]

/-- A successful widget-declaration match decomposes its input into a
brace-free block of the match text followed by the opening brace: the
keyword, whitespace and word runs, the extends keyword and the base-class
literal contain no brace characters. -/
theorem matchWidgetDecl_region {l base : List Char} {len : Nat} {nm : String}
    (hb : ∀ c ∈ base, c ≠ '{' ∧ c ≠ '}')
    (h : matchWidgetDecl l base = some (len, nm)) :
    ∃ P tail, l = P ++ '{' :: tail ∧ len = P.length + 1
      ∧ '{' ∉ P ∧ '}' ∉ P := by
  simp only [matchWidgetDecl] at h
  rcases h1 : eatLit l ("class".data) with _ | r1 <;> rw [h1] at h <;>
    dsimp only at h
  · exact absurd h (by simp)
  by_cases e1 : ((r1.takeWhile isWsChar).isEmpty = true)
  · rw [if_pos e1] at h; exact absurd h (by simp)
  rw [if_neg e1] at h
  by_cases e2 : (((r1.dropWhile isWsChar).takeWhile isWordChar).isEmpty = true)
  · rw [if_pos e2] at h; exact absurd h (by simp)
  rw [if_neg e2] at h
  by_cases e3 : ((((r1.dropWhile isWsChar).dropWhile isWordChar).takeWhile
      isWsChar).isEmpty = true)
  · rw [if_pos e3] at h; exact absurd h (by simp)
  rw [if_neg e3] at h
  rcases h4 : eatLit (((r1.dropWhile isWsChar).dropWhile
      isWordChar).dropWhile isWsChar) ("extends".data) with _ | r5 <;>
    rw [h4] at h <;> dsimp only at h
  · exact absurd h (by simp)
  by_cases e4 : ((r5.takeWhile isWsChar).isEmpty = true)
  · rw [if_pos e4] at h; exact absurd h (by simp)
  rw [if_neg e4] at h
  rcases h6 : eatLit (r5.dropWhile isWsChar) base with _ | r7 <;>
    rw [h6] at h <;> dsimp only at h
  · exact absurd h (by simp)
  rcases h8 : (r7.dropWhile isWsChar) with _ | ⟨c8, t8⟩ <;> rw [h8] at h <;>
    dsimp only at h
  · exact absurd h (by simp)
  by_cases hc8 : c8 = '{'
  swap
  · rw [if_neg hc8] at h
    exact absurd h (by simp)
  rw [if_pos hc8] at h
  subst hc8
  simp only [Option.some.injEq, Prod.mk.injEq] at h
  refine ⟨"class".data ++ ((r1.takeWhile isWsChar)
      ++ (((r1.dropWhile isWsChar).takeWhile isWordChar)
      ++ ((((r1.dropWhile isWsChar).dropWhile isWordChar).takeWhile isWsChar)
      ++ ("extends".data ++ ((r5.takeWhile isWsChar)
      ++ (base ++ (r7.takeWhile isWsChar))))))), t8, ?_, ?_, ?_, ?_⟩
  · have d2 : r1 = r1.takeWhile isWsChar ++ r1.dropWhile isWsChar :=
      (List.takeWhile_append_dropWhile isWsChar r1).symm
    have d3 : r1.dropWhile isWsChar
        = (r1.dropWhile isWsChar).takeWhile isWordChar
          ++ (r1.dropWhile isWsChar).dropWhile isWordChar :=
      (List.takeWhile_append_dropWhile isWordChar _).symm
    have d4 : (r1.dropWhile isWsChar).dropWhile isWordChar
        = ((r1.dropWhile isWsChar).dropWhile isWordChar).takeWhile isWsChar
          ++ ((r1.dropWhile isWsChar).dropWhile isWordChar).dropWhile
            isWsChar :=
      (List.takeWhile_append_dropWhile isWsChar _).symm
    have d6 : r5 = r5.takeWhile isWsChar ++ r5.dropWhile isWsChar :=
      (List.takeWhile_append_dropWhile isWsChar r5).symm
    have d8 : r7 = r7.takeWhile isWsChar ++ r7.dropWhile isWsChar :=
      (List.takeWhile_append_dropWhile isWsChar r7).symm
    conv_lhs => rw [eatLit_eq_some h1, d2, d3, d4, eatLit_eq_some h4, d6,
      eatLit_eq_some h6, d8, h8]
    simp [List.append_assoc]
  · have hlen5 : ("class".data).length = 5 := by decide
    have hlen7 : ("extends".data).length = 7 := by decide
    simp only [List.length_append, hlen5, hlen7]
    omega
  · intro hmem
    simp only [List.mem_append] at hmem
    rcases hmem with h' | h' | h' | h' | h' | h' | h' | h'
    · exact absurd rfl ((by decide : ∀ c ∈ "class".data,
        c ≠ '{' ∧ c ≠ '}') _ h').1
    · exact absurd rfl (wsChar_not_brace (mem_takeWhile h')).1
    · exact absurd rfl (wordChar_not_brace (mem_takeWhile h')).1
    · exact absurd rfl (wsChar_not_brace (mem_takeWhile h')).1
    · exact absurd rfl ((by decide : ∀ c ∈ "extends".data,
        c ≠ '{' ∧ c ≠ '}') _ h').1
    · exact absurd rfl (wsChar_not_brace (mem_takeWhile h')).1
    · exact absurd rfl (hb _ h').1
    · exact absurd rfl (wsChar_not_brace (mem_takeWhile h')).1
  · intro hmem
    simp only [List.mem_append] at hmem
    rcases hmem with h' | h' | h' | h' | h' | h' | h' | h'
    · exact absurd rfl ((by decide : ∀ c ∈ "class".data,
        c ≠ '{' ∧ c ≠ '}') _ h').2
    · exact absurd rfl (wsChar_not_brace (mem_takeWhile h')).2
    · exact absurd rfl (wordChar_not_brace (mem_takeWhile h')).2
    · exact absurd rfl (wsChar_not_brace (mem_takeWhile h')).2
    · exact absurd rfl ((by decide : ∀ c ∈ "extends".data,
        c ≠ '{' ∧ c ≠ '}') _ h').2
    · exact absurd rfl (wsChar_not_brace (mem_takeWhile h')).2
    · exact absurd rfl (hb _ h').2
    · exact absurd rfl (wsChar_not_brace (mem_takeWhile h')).2

/-- On a region opened by a successful widget-declaration match the
class-end computation equals the specification-side depth count. -/
theorem findClassEnd_of_match {content : String} {base : List Char}
    {m len : Nat} {nm : String}
    (hb : ∀ c ∈ base, c ≠ '{' ∧ c ≠ '}')
    (hmatch : matchWidgetDecl (content.data.drop m) base = some (len, nm)) :
    findClassEnd content m = specClassEnd content m := by
  apply findClassEnd_eq_spec
  intro b hfb
  rcases matchWidgetDecl_region hb hmatch with ⟨P, tail, hl, _, hPo, hPc⟩
  rw [hl, firstOpenIdx_append P tail hPo] at hfb
  have hbP : b = P.length := (Option.some.inj hfb).symm
  subst hbP
  rw [hl, List.take_left]
  exact hPc

/-- C6: extraction returns exactly one component record per declaration
match (one per immutable-pattern match plus one per mutable-pattern
match), and the end line of every record is the line where the brace depth,
counted from the first opening brace after the match, returns to zero,
falling back to the last line of the file when the braces never
rebalance. -/
theorem widget_extraction_scope_end (content : String) :
    (extractWidgets content).length
        = (scanWidgetDecls content "StatelessWidget").length
          + (scanWidgetDecls content "StatefulWidget").length
    ∧ ∀ w ∈ extractWidgets content,
        ∃ m, (m ∈ scanWidgetDecls content "StatelessWidget"
              ∨ m ∈ scanWidgetDecls content "StatefulWidget")
          ∧ w.name = m.2 ∧ w.lineStart = lineOfPos content m.1
          ∧ w.lineEnd = specClassEnd content m.1 := by
  constructor
  · simp [extractWidgets]
  · intro w hw
    rcases List.mem_append.mp hw with h | h <;>
      rcases List.mem_map.mp h with ⟨m, hm, rfl⟩
    · simp only [scanWidgetDecls] at hm
      rcases scanMatches_sound _ _ _ _ _ hm with ⟨-, len, hmat⟩
      rw [Nat.sub_zero] at hmat
      exact ⟨m, Or.inl hm, rfl, rfl, findClassEnd_of_match (by decide) hmat⟩
    · simp only [scanWidgetDecls] at hm
      rcases scanMatches_sound _ _ _ _ _ hm with ⟨-, len, hmat⟩
      rw [Nat.sub_zero] at hmat
      exact ⟨m, Or.inr hm, rfl, rfl, findClassEnd_of_match (by decide) hmat⟩

/-- Witness for the widget scope-end theorem at a concrete source text:
one immutable component whose braces close on line 2. -/
theorem widget_extraction_scope_end_witness :
    (extractWidgets "class A extends StatelessWidget \x7b\n\x7d\n").length
        = (scanWidgetDecls "class A extends StatelessWidget \x7b\n\x7d\n"
            "StatelessWidget").length
          + (scanWidgetDecls "class A extends StatelessWidget \x7b\n\x7d\n"
            "StatefulWidget").length
    ∧ ∃ m, (m ∈ scanWidgetDecls "class A extends StatelessWidget \x7b\n\x7d\n"
              "StatelessWidget"
            ∨ m ∈ scanWidgetDecls "class A extends StatelessWidget \x7b\n\x7d\n"
              "StatefulWidget")
        ∧ (⟨"A", "StatelessWidget", 1, 2⟩ : WidgetRec).name = m.2
        ∧ (⟨"A", "StatelessWidget", 1, 2⟩ : WidgetRec).lineStart
            = lineOfPos "class A extends StatelessWidget \x7b\n\x7d\n" m.1
        ∧ (⟨"A", "StatelessWidget", 1, 2⟩ : WidgetRec).lineEnd
            = specClassEnd "class A extends StatelessWidget \x7b\n\x7d\n" m.1 :=
  ⟨(widget_extraction_scope_end "class A extends StatelessWidget \x7b\n\x7d\n").1,
   (widget_extraction_scope_end "class A extends StatelessWidget \x7b\n\x7d\n").2
     ⟨"A", "StatelessWidget", 1, 2⟩ (by decide)⟩

/-- Evaluation of the embedded gap reporter on the scenario of the
repository unit test test_compute_gap_report_matches_and_flags, with the
outputs that test asserts. -/
theorem gap_report_unit_scenario :
    computeGapReport
      [⟨"/v1/foo", "GET"⟩, ⟨"/v1/bar", "POST"⟩, ⟨"/v1/baz", "PUT"⟩]
      [⟨"/v1/foo", "GET"⟩, ⟨"/v1/bar", "GET"⟩, ⟨"/v1/qux", "DELETE"⟩]
      [⟨"/v1/foo", "GET", "a.dart", 1⟩] =
    { missing_backend_endpoints :=
        [⟨"/v1/baz", "PUT", "No matching FastAPI endpoint"⟩]
      backend_without_contract :=
        [⟨"/v1/bar", "GET", "Endpoint not covered by contract"⟩,
         ⟨"/v1/qux", "DELETE", "Endpoint not covered by contract"⟩]
      contracts_not_used_in_flutter :=
        [⟨"/v1/bar", "POST", "Not called from Flutter"⟩,
         ⟨"/v1/baz", "PUT", "Not called from Flutter"⟩]
      method_mismatches :=
        [⟨"/v1/bar", "POST", ["GET"],
          "Method differs between contract and backend"⟩] } := by
  decide

/-- Evaluation of the widget extractor on a two-component source: the
second component never rebalances its braces on a deeper line, so its end
line is its own last line. -/
theorem extract_widgets_sample :
    extractWidgets "class A extends StatelessWidget \x7b\n  int x;\n\x7d\nclass B extends StatefulWidget \x7b\x7d\n" =
      [⟨"A", "StatelessWidget", 1, 3⟩, ⟨"B", "StatefulWidget", 4, 4⟩] := by
  decide

end FdAgent
